import Mathlib

/-
  Verification of the tslint-microsoft-contrib rule implementations:
  - noStatelessClassRule.ts (the no-stateless-class rule)
  - mochaNoSideEffectCodeRule.ts (the mocha-no-side-effect-code rule)

  The TypeScript sources are shallowly embedded: the AST node shapes the
  rules inspect become inductive types, external accessors from the
  TypeScript front end (getText, getFunctionName, modifier flags) become
  oracle fields recorded on the nodes, and each rule's walker methods
  become pure functions returning the list of diagnostics they emit.
-/

/-- A reported rule violation: `createFailure(start, width, message)`. -/
structure Diagnostic where
  message : String
  start : Nat
  width : Nat
deriving DecidableEq, Repr

namespace NoStatelessClass

/-- token of a `ts.HeritageClause`: either `extends` or `implements`. -/
inductive HeritageToken where
  | extendsKeyword
  | implementsKeyword
deriving DecidableEq, Repr

/-- A `ts.HeritageClause`, carrying only the token the rule inspects. -/
structure HeritageClause where
  token : HeritageToken
deriving DecidableEq, Repr

/-- The kind of a `ts.ClassElement` as far as the rule distinguishes it:
a `Constructor` node or any other member kind (method, property, ...). -/
inductive ClassElementKind where
  | constructorKind
  | otherKind
deriving DecidableEq, Repr

/-- A `ts.ClassElement`. `isStatic` records the result of the external
`AstUtils.isStatic` modifier-flag check on this member. -/
structure ClassElement where
  kind : ClassElementKind
  isStatic : Bool
deriving DecidableEq, Repr

/-- A `ts.ClassDeclaration` as inspected by the rule. An absent
`heritageClauses` array is modelled as the empty list (`Utils.exists`
treats `undefined` and `[]` identically). `start`/`width` are
`node.getStart()` and `node.getWidth()`. -/
structure ClassDeclaration where
  name : Option String
  heritageClauses : List HeritageClause
  members : List ClassElement
  start : Nat
  width : Nat
deriving DecidableEq, Repr

/-- Modelled from the spec: `Utils.exists` — true iff some element of the
(possibly absent, here: possibly empty) list satisfies the predicate. -/
def Utils.exists' (list : List α) (predicate : α → Bool) : Bool :=
  list.any predicate

/-- Modelled from the spec: `AstUtils.isStatic` — whether the member is
declared static; recorded on the element as an oracle field. -/
def AstUtils.isStatic (classElement : ClassElement) : Bool :=
  classElement.isStatic

/-- `FAILURE_STRING` of noStatelessClassRule.ts. -/
def FAILURE_STRING : String :=
  "A stateless class was found. This indicates a failure in the object model: "

/-- `NoStatelessClassRuleWalker.isClassStateful`, transcribed branch by
branch from noStatelessClassRule.ts. -/
def isClassStateful (node : ClassDeclaration) : Bool :=
  if Utils.exists' node.heritageClauses
      (fun clause => clause.token == HeritageToken.extendsKeyword) then
    true
  else if node.members.length == 0 then
    false
  else
    Utils.exists' node.members (fun classElement =>
      if classElement.kind == ClassElementKind.constructorKind then
        false
      else if AstUtils.isStatic classElement then
        false
      else
        true)

/-- `NoStatelessClassRuleWalker.visitClassDeclaration`: the diagnostics
this rule emits for one class declaration node. -/
def visitClassDeclaration (node : ClassDeclaration) : List Diagnostic :=
  if !(isClassStateful node) then
    let className : String :=
      match node.name with
      | none => "<unknown>"
      | some n => n
    [{ message := FAILURE_STRING ++ className, start := node.start, width := node.width }]
  else
    []

end NoStatelessClass

namespace MochaNoSideEffectCode

/-- The shape of a `ts.Expression` as far as `validateExpression`
distinguishes it.  Every shape carries the node's source text
(`getText()`).  `literal` stands for the literal-constant kinds the
external `AstUtils.isConstant` recognises (numbers, strings, booleans,
null/undefined).  An object literal's properties are `some value` for a
`PropertyAssignment` with its initializer, `none` for any other element
kind.  On the shapes that can reach the fallback check
(`callExpression`, `newExpression`, `otherExpression`), `constExpr`
records the result of the external `AstUtils.isConstantExpression`
structural-constant check, `functionName` the result of
`AstUtils.getFunctionName`, and `functionTarget` the result of
`AstUtils.getFunctionTarget`. -/
inductive Expr where
  | literal (text : String)
  | functionExpr (text : String)
  | arrowFunction (text : String)
  | arrayLiteral (text : String) (elements : List Expr)
  | templateToken (text : String)
  | typeAssertion (text : String) (expression : Expr)
  | propertyAccess (text : String)
  | identifier (text : String)
  | objectLiteral (text : String) (properties : List (Option Expr))
  | callExpression (text : String) (functionName : String)
      (functionTarget : Option String) (constExpr : Bool)
  | newExpression (text : String) (functionName : String) (constExpr : Bool)
  | otherExpression (text : String) (constExpr : Bool)

/-- `node.getText()`. -/
def Expr.getText : Expr → String
  | .literal text => text
  | .functionExpr text => text
  | .arrowFunction text => text
  | .arrayLiteral text _ => text
  | .templateToken text => text
  | .typeAssertion text _ => text
  | .propertyAccess text => text
  | .identifier text => text
  | .objectLiteral text _ => text
  | .callExpression text _ _ _ => text
  | .newExpression text _ _ => text
  | .otherExpression text _ => text

/-- Modelled from the spec: `AstUtils.isConstant` — true exactly on the
literal-constant kinds (policy item 2: numbers, strings, booleans,
null/undefined). -/
def AstUtils.isConstant : Expr → Bool
  | .literal _ => true
  | _ => false

/-- Modelled from the spec: `AstUtils.isConstantExpression` — the
fallback structural constant check (policy item 12, purely literal
binary/unary combinations), recorded as an oracle field on the shapes
that can reach it; shapes that return from an earlier check never
consult it. -/
def AstUtils.isConstantExpression : Expr → Bool
  | .callExpression _ _ _ constExpr => constExpr
  | .newExpression _ _ constExpr => constExpr
  | .otherExpression _ constExpr => constExpr
  | _ => false

/-- Modelled from the spec: `AstUtils.getFunctionTarget` on a call
expression — the textual target of the call, e.g. `some "moment()"` for
`moment().utc(...)`. -/
def AstUtils.getFunctionTarget : Expr → Option String
  | .callExpression _ _ functionTarget _ => functionTarget
  | _ => none

/-- Modelled from the spec: `AstUtils.getFunctionName` on a call or new
expression — the callee's identifier text. -/
def AstUtils.getFunctionName : Expr → String
  | .callExpression _ functionName _ _ => functionName
  | .newExpression _ functionName _ => functionName
  | _ => ""

/-- Modelled from the spec: `Utils.trimTo` — truncates an overly long
message fragment to a fixed maximum length, preserving a stable prefix. -/
def Utils.trimTo (value : String) (maxLength : Nat) : String :=
  if value.length ≤ maxLength then value
  else (value.take (maxLength - 2)) ++ "..."

/-- `FAILURE_STRING` of mochaNoSideEffectCodeRule.ts. -/
def FAILURE_STRING : String :=
  "Mocha test contains dangerous variable initialization. Move to before()/beforeEach(): "

/-- The parent node a diagnostic is anchored to: `parentNode.getText()`,
`parentNode.getStart()`, `parentNode.getWidth()`. -/
structure PNode where
  text : String
  start : Nat
  width : Nat
deriving DecidableEq, Repr

/-- The walker's parsed configuration: `ignoreRegex` is the compiled
ignore pattern when one was configured, modelled as its `test` predicate
on source text (`none` when no pattern was configured). -/
structure Config where
  ignoreRegex : Option (String → Bool)

/-- The tail of `validateExpression` reached by expression kinds that
match none of the earlier kind checks (call expressions, new
expressions, and any remaining kind): the `moment()` text check, the
`moment()` call-target check, the `new Date` check, the ignore-pattern
check, the `isConstantExpression` fallback, and finally `addFailure`. -/
def validateExpressionTail (cfg : Config) (parentNode : PNode)
    (initializer : Expr) : List Diagnostic :=
  if initializer.getText == "moment()" then []
  else if (match initializer with
           | .callExpression _ _ _ _ => true
           | _ => false)
      && AstUtils.getFunctionTarget initializer == some "moment()" then []
  else if (match initializer with
           | .newExpression _ _ _ => true
           | _ => false)
      && AstUtils.getFunctionName initializer == "Date" then []
  else if (match cfg.ignoreRegex with
           | some test => test initializer.getText
           | none => false) then []
  else if AstUtils.isConstantExpression initializer then []
  else
    [{ message := FAILURE_STRING ++ Utils.trimTo parentNode.text 30,
       start := parentNode.start, width := parentNode.width }]

mutual

/-- `MochaNoSideEffectCodeRuleWalker.validateExpression`, transcribed
check by check from mochaNoSideEffectCodeRule.ts; returns the
diagnostics the method emits (each anchored at `parentNode`).  The
kind checks of the source appear in order; disjoint kinds make the
ordered if-chain a single match. -/
def validateExpression (cfg : Config) (parentNode : PNode) :
    Expr → List Diagnostic
  | .literal _ => []
  | .functionExpr _ => []
  | .arrowFunction _ => []
  | .arrayLiteral _ elements => validateElements cfg parentNode elements
  | .templateToken _ => []
  | .typeAssertion _ expression => validateExpression cfg parentNode expression
  | .propertyAccess _ => []
  | .identifier _ => []
  | .objectLiteral _ properties => validateProperties cfg parentNode properties
  | e => validateExpressionTail cfg parentNode e

/-- `arrayLiteral.elements.forEach(e => this.validateExpression(e, parentNode))`. -/
def validateElements (cfg : Config) (parentNode : PNode) :
    List Expr → List Diagnostic
  | [] => []
  | expression :: rest =>
      validateExpression cfg parentNode expression
        ++ validateElements cfg parentNode rest

/-- `literal.properties.forEach(...)`: only `PropertyAssignment`
elements (`some value`) have their initializer validated. -/
def validateProperties (cfg : Config) (parentNode : PNode) :
    List (Option Expr) → List Diagnostic
  | [] => []
  | some value :: rest =>
      validateExpression cfg parentNode value
        ++ validateProperties cfg parentNode rest
  | none :: rest => validateProperties cfg parentNode rest

end

/-- The `initializer == null` guard at the top of `validateExpression`:
an absent initializer yields no diagnostic. -/
def validateInitializer (cfg : Config) (parentNode : PNode) :
    Option Expr → List Diagnostic
  | none => []
  | some initializer => validateExpression cfg parentNode initializer

/-- A node of the tree as the walker dispatches on it.  A
`callNode` carries the oracle results the walker reads before deciding
how to proceed (`AstUtils.getFunctionName(node)` and
`node.expression.getText()`), the call itself as an `Expr` (the walker
passes `node` to `validateExpression` as both expression and parent),
its position, and its children for the generic `super` traversal.  A
`varDeclNode` is a `ts.VariableDeclaration` with its optional
initializer and its own text/position (the declaration is the parent
node of any diagnostic).  Function and class declarations carry their
children but are never walked into. -/
inductive TNode where
  | callNode (functionName : String) (calleeText : String) (asExpr : Expr)
      (start width : Nat) (children : List TNode)
  | varDeclNode (initializer : Option Expr) (text : String) (start width : Nat)
  | funcDeclNode (children : List TNode)
  | classDeclNode (children : List TNode)
  | genericNode (children : List TNode)

mutual

/-- The walker's per-node dispatch with the `isInDescribe` field threaded
explicitly: `visitCallExpression`, `visitVariableDeclaration`,
`visitFunctionDeclaration`, `visitClassDeclaration`, and the generic
walk for other kinds.  Returns the diagnostics emitted while visiting
the node together with the value of `isInDescribe` after the visit. -/
def visitNode (cfg : Config) (isInDescribe : Bool) :
    TNode → List Diagnostic × Bool
  | .callNode functionName calleeText asExpr s w children =>
      if functionName == "describe" || calleeText == "describe.skip" then
        -- this.isInDescribe = true; super.visitCallExpression(node);
        -- if (nestedSubscribe === false) { this.isInDescribe = false; }
        let nestedSubscribe := isInDescribe
        let result := visitList cfg true children
        (result.1, if nestedSubscribe == false then false else result.2)
      else if functionName == "it" || functionName == "before"
          || functionName == "beforeEach" || functionName == "after"
          || functionName == "afterEach" then
        -- do not visit the lifecycle methods
        ([], isInDescribe)
      else if isInDescribe then
        (validateExpression cfg ⟨asExpr.getText, s, w⟩ asExpr, isInDescribe)
      else
        ([], isInDescribe)
  | .varDeclNode initializer text s w =>
      if isInDescribe == true then
        (validateInitializer cfg ⟨text, s, w⟩ initializer, isInDescribe)
      else
        ([], isInDescribe)
  | .funcDeclNode _ => ([], isInDescribe)
  | .classDeclNode _ => ([], isInDescribe)
  | .genericNode children => visitList cfg isInDescribe children

/-- Generic traversal of a list of sibling nodes in source order,
threading `isInDescribe`. -/
def visitList (cfg : Config) (isInDescribe : Bool) :
    List TNode → List Diagnostic × Bool
  | [] => ([], isInDescribe)
  | n :: rest =>
      let r1 := visitNode cfg isInDescribe n
      let r2 := visitList cfg r1.2 rest
      (r1.1 ++ r2.1, r2.2)

end

/-- A top-level `ts.VariableDeclaration` inside a `VariableStatement`. -/
structure VarDecl where
  initializer : Option Expr
  text : String
  start : Nat
  width : Nat

/-- A top-level statement as `visitSourceFile` classifies it: a
`VariableStatement` with its declaration list, a statement recognised by
`MochaUtils.isStatementDescribeCall` (carrying the call expression), or
any other statement (ignored). -/
inductive Statement where
  | variableStatement (declarations : List VarDecl)
  | describeCallStatement (call : TNode)
  | otherStatement

/-- A `ts.SourceFile`: `isMochaTest` records the result of the external
`MochaUtils.isMochaTest` recognition of a test-suite file. -/
structure SourceFile where
  isMochaTest : Bool
  statements : List Statement

/-- `declarationList.declarations.forEach(d => this.validateExpression(d.initializer, d))`. -/
def validateDeclarations (cfg : Config) : List VarDecl → List Diagnostic
  | [] => []
  | d :: rest =>
      validateInitializer cfg ⟨d.text, d.start, d.width⟩ d.initializer
        ++ validateDeclarations cfg rest

/-- The statement loop of `visitSourceFile`, threading `isInDescribe`
across statements (the walker field persists between statements). -/
def visitStatements (cfg : Config) (isInDescribe : Bool) :
    List Statement → List Diagnostic × Bool
  | [] => ([], isInDescribe)
  | .variableStatement declarations :: rest =>
      let r := visitStatements cfg isInDescribe rest
      (validateDeclarations cfg declarations ++ r.1, r.2)
  | .describeCallStatement call :: rest =>
      let r1 := visitNode cfg isInDescribe call
      let r2 := visitStatements cfg r1.2 rest
      (r1.1 ++ r2.1, r2.2)
  | .otherStatement :: rest => visitStatements cfg isInDescribe rest

/-- `MochaNoSideEffectCodeRuleWalker.visitSourceFile`: statements are
inspected only when the file is a recognised Mocha test; the walker's
`isInDescribe` field starts out false. -/
def visitSourceFile (cfg : Config) (file : SourceFile) : List Diagnostic :=
  if file.isMochaTest then (visitStatements cfg false file.statements).1
  else []

/-- One entry of the rule's option list: a scalar, or an object possibly
carrying an `ignore` field holding a pattern source string. -/
inductive RuleOption where
  | scalarOption (value : String)
  | objectOption (ignore : Option String)

/-- `MochaNoSideEffectCodeRuleWalker.parseOptions`, run from the walker
constructor: each object option with a non-null `ignore` field has its
pattern compiled (`new RegExp(opt.ignore)`, modelled by the abstract
`compileRegExp`, which throws — returns `Except.error` — on a string
that does not compile); later patterns overwrite earlier ones. -/
def parseOptions (compileRegExp : String → Except String (String → Bool))
    (opts : List RuleOption) : Except String (Option (String → Bool)) :=
  opts.foldlM
    (fun ignoreRegex opt =>
      match opt with
      | .objectOption (some pat) => do
          let r ← compileRegExp pat
          pure (some r)
      | _ => pure ignoreRegex)
    none

/-- `Rule.apply`: the walker is constructed first (running
`parseOptions`; a pattern that fails to compile propagates out of the
constructor), and only then is the tree traversed. -/
def applyRule (compileRegExp : String → Except String (String → Bool))
    (opts : List RuleOption) (file : SourceFile) :
    Except String (List Diagnostic) := do
  let ignoreRegex ← parseOptions compileRegExp opts
  pure (visitSourceFile { ignoreRegex := ignoreRegex } file)

mutual

/-- Size of an expression tree: one per node, counting the nodes
`validateExpression` can recurse into (array elements, the expression
wrapped by a type assertion, object property values). -/
def size : Expr → Nat
  | .arrayLiteral _ elements => 1 + sizeElements elements
  | .typeAssertion _ expression => 1 + size expression
  | .objectLiteral _ properties => 1 + sizeProperties properties
  | _ => 1

/-- Total size of a list of array elements. -/
def sizeElements : List Expr → Nat
  | [] => 0
  | e :: rest => size e + sizeElements rest

/-- Total size of an object literal's property list. -/
def sizeProperties : List (Option Expr) → Nat
  | [] => 0
  | some v :: rest => size v + sizeProperties rest
  | none :: rest => sizeProperties rest

end

mutual

/-- A fuel-bounded rerun of `validateExpression`: each recursive descent
into a subexpression consumes one unit of fuel, and exhausted fuel
yields `none`.  `validateExpression` terminates on every finite tree
exactly when enough fuel always exists, which the completeness theorem
establishes with `size` as the bound. -/
def validateFuel (cfg : Config) (parentNode : PNode) :
    Nat → Expr → Option (List Diagnostic)
  | 0, _ => none
  | Nat.succ n, e =>
      match e with
      | .literal _ => some []
      | .functionExpr _ => some []
      | .arrowFunction _ => some []
      | .arrayLiteral _ elements => validateElementsFuel cfg parentNode n elements
      | .templateToken _ => some []
      | .typeAssertion _ expression => validateFuel cfg parentNode n expression
      | .propertyAccess _ => some []
      | .identifier _ => some []
      | .objectLiteral _ properties =>
          validatePropertiesFuel cfg parentNode n properties
      | e => some (validateExpressionTail cfg parentNode e)
termination_by n _ => (n, 0)

/-- Fuel-bounded run over an array literal's elements. -/
def validateElementsFuel (cfg : Config) (parentNode : PNode) :
    Nat → List Expr → Option (List Diagnostic)
  | _, [] => some []
  | n, x :: rest => do
      let d ← validateFuel cfg parentNode n x
      let ds ← validateElementsFuel cfg parentNode n rest
      pure (d ++ ds)
termination_by n l => (n, l.length + 1)

/-- Fuel-bounded run over an object literal's properties. -/
def validatePropertiesFuel (cfg : Config) (parentNode : PNode) :
    Nat → List (Option Expr) → Option (List Diagnostic)
  | _, [] => some []
  | n, some v :: rest => do
      let d ← validateFuel cfg parentNode n v
      let ds ← validatePropertiesFuel cfg parentNode n rest
      pure (d ++ ds)
  | n, none :: rest => validatePropertiesFuel cfg parentNode n rest
termination_by n l => (n, l.length + 1)

end

end MochaNoSideEffectCode

namespace NoStatelessClass

/-- The rule emits a diagnostic for a class exactly when
`isClassStateful` returns false. -/
theorem visitClassDeclaration_eq_nil_iff (node : ClassDeclaration) :
    visitClassDeclaration node = [] ↔ isClassStateful node = true := by
  unfold visitClassDeclaration
  cases h : isClassStateful node <;> simp [h]

/-- Claim C1, counterexample: a class declaring zero members (and no
heritage clauses) is reported by the rule — `visitClassDeclaration` on a
concrete empty class is not the empty diagnostic list, so the claim
that zero-member classes are exempt is false. -/
theorem zero_member_class_cex :
    visitClassDeclaration
      { name := some "Empty", heritageClauses := [], members := [],
        start := 5, width := 20 } ≠ [] := by
  decide

/-- Claim C1, amended: a class declaring zero members is flagged by the
rule unless it has an `extends` heritage clause (zero-member classes
are not exempt; only the heritage check can exempt them). -/
theorem zero_member_class_flagged (node : ClassDeclaration)
    (h : node.members = []) :
    visitClassDeclaration node ≠ [] ↔
      Utils.exists' node.heritageClauses
        (fun clause => clause.token == HeritageToken.extendsKeyword) = false := by
  rw [Ne, visitClassDeclaration_eq_nil_iff]
  unfold isClassStateful
  cases hEx : Utils.exists' node.heritageClauses
      (fun clause => clause.token == HeritageToken.extendsKeyword) <;>
    simp [hEx, h]

/-- Witness for `zero_member_class_flagged` at a concrete empty class. -/
theorem zero_member_class_flagged_witness :
    visitClassDeclaration
      { name := some "AnotherEmpty", heritageClauses := [], members := [],
        start := 0, width := 11 } ≠ [] :=
  (zero_member_class_flagged
      { name := some "AnotherEmpty", heritageClauses := [], members := [],
        start := 0, width := 11 } rfl).mpr (by decide)

/-- The member predicate of `isClassStateful` holds exactly on members
that are neither constructors nor static. -/
theorem stateless_member_pred (m : ClassElement) :
    (if m.kind == ClassElementKind.constructorKind then false
     else if AstUtils.isStatic m then false else true) = false ↔
      (m.kind = ClassElementKind.constructorKind ∨ AstUtils.isStatic m = true) := by
  obtain ⟨k, s⟩ := m
  cases k <;> cases s <;> simp [AstUtils.isStatic]

/-- For a class with no heritage clauses and a nonempty member list,
`isClassStateful` reduces to the member scan. -/
theorem isClassStateful_members (node : ClassDeclaration)
    (h1 : node.heritageClauses = []) (h2 : node.members ≠ []) :
    isClassStateful node = node.members.any (fun classElement =>
      if classElement.kind == ClassElementKind.constructorKind then false
      else if AstUtils.isStatic classElement then false else true) := by
  unfold isClassStateful
  simp [Utils.exists', h1, List.length_eq_zero, h2]

/-- Claim C2: for a class with no inheritance relationship and at least
one member, the rule flags it iff every member is a constructor or
static, and appending one member that is neither makes it not flagged. -/
theorem stateless_flag_iff (node : ClassDeclaration)
    (h1 : node.heritageClauses = []) (h2 : node.members ≠ []) :
    (visitClassDeclaration node ≠ [] ↔
      ∀ m ∈ node.members,
        m.kind = ClassElementKind.constructorKind ∨ AstUtils.isStatic m = true)
    ∧ (∀ extra : ClassElement,
        extra.kind ≠ ClassElementKind.constructorKind →
        AstUtils.isStatic extra = false →
        visitClassDeclaration { node with members := node.members ++ [extra] } = []) := by
  constructor
  · rw [Ne, visitClassDeclaration_eq_nil_iff, Bool.not_eq_true,
      isClassStateful_members node h1 h2, List.any_eq_false]
    exact forall_congr' fun m => forall_congr' fun _ => by
      rw [Bool.not_eq_true, stateless_member_pred]
  · intro extra hk hs
    have h2' : node.members ++ [extra] ≠ [] := by simp
    rw [visitClassDeclaration_eq_nil_iff,
      isClassStateful_members { node with members := node.members ++ [extra] } h1 h2',
      List.any_append]
    simp [AstUtils.isStatic, hs, beq_iff_eq, hk]
    exact Or.inr hs

/-- Witness for `stateless_flag_iff`: a class with only a constructor
and a static member is flagged; adding an instance method exempts it. -/
theorem stateless_flag_iff_witness :
    (visitClassDeclaration
      { name := some "Helpers", heritageClauses := [],
        members := [{ kind := ClassElementKind.constructorKind, isStatic := false },
                    { kind := ClassElementKind.otherKind, isStatic := true }],
        start := 1, width := 60 } ≠ [])
    ∧ visitClassDeclaration
      { name := some "Helpers", heritageClauses := [],
        members := [{ kind := ClassElementKind.constructorKind, isStatic := false },
                    { kind := ClassElementKind.otherKind, isStatic := true },
                    { kind := ClassElementKind.otherKind, isStatic := false }],
        start := 1, width := 60 } = [] := by
  have h := stateless_flag_iff
    { name := some "Helpers", heritageClauses := [],
      members := [{ kind := ClassElementKind.constructorKind, isStatic := false },
                  { kind := ClassElementKind.otherKind, isStatic := true }],
      start := 1, width := 60 } rfl (by decide)
  exact ⟨h.1.mpr (by decide),
    h.2 { kind := ClassElementKind.otherKind, isStatic := false } (by decide) rfl⟩

/-- Claim C3, counterexample: a class whose only heritage clause is an
`implements` clause, with a single constructor member, is flagged by the
rule — so "any heritage clause exempts" is false. -/
theorem implements_only_class_cex :
    visitClassDeclaration
      { name := some "Svc",
        heritageClauses := [{ token := HeritageToken.implementsKeyword }],
        members := [{ kind := ClassElementKind.constructorKind, isStatic := false }],
        start := 2, width := 40 } ≠ [] := by
  decide

/-- Claim C3, amended: only an `extends` heritage clause exempts a class
from the rule, regardless of its members; `implements` clauses are
ignored by the heritage check. -/
theorem extends_clause_exempts (node : ClassDeclaration)
    (h : Utils.exists' node.heritageClauses
        (fun clause => clause.token == HeritageToken.extendsKeyword) = true) :
    visitClassDeclaration node = [] := by
  rw [visitClassDeclaration_eq_nil_iff]
  unfold isClassStateful
  simp [h]

/-- Witness for `extends_clause_exempts`: a derived class with only a
static member yields no diagnostic. -/
theorem extends_clause_exempts_witness :
    visitClassDeclaration
      { name := some "Derived",
        heritageClauses := [{ token := HeritageToken.extendsKeyword }],
        members := [{ kind := ClassElementKind.otherKind, isStatic := true }],
        start := 0, width := 50 } = [] :=
  extends_clause_exempts
    { name := some "Derived",
      heritageClauses := [{ token := HeritageToken.extendsKeyword }],
      members := [{ kind := ClassElementKind.otherKind, isStatic := true }],
      start := 0, width := 50 } (by decide)

/-- Claim C10: when the rule flags a class, the diagnostic's message is
the failure prefix followed by `<unknown>` for a nameless class and by
the class's name otherwise, anchored at the node's start offset with the
node's width. -/
theorem flagged_diagnostic_shape (node : ClassDeclaration)
    (h : isClassStateful node = false) :
    (node.name = none → visitClassDeclaration node =
      [{ message := FAILURE_STRING ++ "<unknown>",
         start := node.start, width := node.width }])
    ∧ (∀ n : String, node.name = some n → visitClassDeclaration node =
      [{ message := FAILURE_STRING ++ n,
         start := node.start, width := node.width }]) := by
  constructor
  · intro hn
    unfold visitClassDeclaration
    simp [h, hn]
  · intro n hn
    unfold visitClassDeclaration
    simp [h, hn]

/-- Witness for `flagged_diagnostic_shape` at a concrete nameless class. -/
theorem flagged_diagnostic_shape_witness :
    visitClassDeclaration
      { name := none, heritageClauses := [], members := [],
        start := 3, width := 9 } =
      [{ message := FAILURE_STRING ++ "<unknown>", start := 3, width := 9 }] :=
  (flagged_diagnostic_shape
      { name := none, heritageClauses := [], members := [],
        start := 3, width := 9 } (by decide)).1 rfl

end NoStatelessClass

namespace MochaNoSideEffectCode

/-- Validating an array literal's element list yields no diagnostic iff
every element yields none. -/
theorem validateElements_eq_nil_iff (cfg : Config) (p : PNode) :
    ∀ elements : List Expr,
      (validateElements cfg p elements = [] ↔
        ∀ e ∈ elements, validateExpression cfg p e = [])
  | [] => by simp [validateElements]
  | e :: rest => by
      simp [validateElements, List.append_eq_nil,
        validateElements_eq_nil_iff cfg p rest]

/-- Validating an object literal's property list yields no diagnostic
iff every property-assignment value yields none. -/
theorem validateProperties_eq_nil_iff (cfg : Config) (p : PNode) :
    ∀ properties : List (Option Expr),
      (validateProperties cfg p properties = [] ↔
        ∀ v : Expr, some v ∈ properties → validateExpression cfg p v = [])
  | [] => by simp [validateProperties]
  | some value :: rest => by
      simp [validateProperties, List.append_eq_nil,
        validateProperties_eq_nil_iff cfg p rest]
  | none :: rest => by
      simp [validateProperties, validateProperties_eq_nil_iff cfg p rest]

/-- Claim C4: a validated declaration whose initializer is an array
literal yields no diagnostic iff every element is safe, and one whose
initializer is an object literal yields no diagnostic iff every
property's value expression is safe (so any unsafe part yields a
diagnostic). -/
theorem classifier_literal_conjunction (cfg : Config) (p : PNode)
    (t u : String) (elements : List Expr) (properties : List (Option Expr)) :
    (validateInitializer cfg p (some (Expr.arrayLiteral t elements)) = [] ↔
      ∀ e ∈ elements, validateExpression cfg p e = [])
    ∧ (validateInitializer cfg p (some (Expr.objectLiteral u properties)) = [] ↔
      ∀ v : Expr, some v ∈ properties → validateExpression cfg p v = []) := by
  constructor
  · rw [validateInitializer, validateExpression]
    exact validateElements_eq_nil_iff cfg p elements
  · rw [validateInitializer, validateExpression]
    exact validateProperties_eq_nil_iff cfg p properties

/-- Claim C7: with the ignore pattern matching exactly the text
`someFunctionCall()`, a validated call expression with that exact text
yields no diagnostic while `someFunctionCall(1)` yields one; and the
built-in known-safe-call and safe-constructor checks (`moment()` and
`new Date`) apply before — hence independently of — any configured
ignore pattern. -/
theorem ignore_pattern_scenario (p : PNode) :
    (validateExpression
        { ignoreRegex := some (fun text => text == "someFunctionCall()") } p
        (Expr.callExpression "someFunctionCall()" "someFunctionCall" none false) = [])
    ∧ (validateExpression
        { ignoreRegex := some (fun text => text == "someFunctionCall()") } p
        (Expr.callExpression "someFunctionCall(1)" "someFunctionCall" none false) =
      [{ message := FAILURE_STRING ++ Utils.trimTo p.text 30,
         start := p.start, width := p.width }])
    ∧ (∀ ignoreRegex : Option (String → Bool),
        validateExpression { ignoreRegex := ignoreRegex } p
          (Expr.callExpression "moment()" "moment" none false) = []
        ∧ validateExpression { ignoreRegex := ignoreRegex } p
          (Expr.newExpression "new Date()" "Date" false) = []) := by
  refine ⟨?_, ?_, fun ignoreRegex => ⟨?_, ?_⟩⟩ <;>
    simp [validateExpression, validateExpressionTail, Expr.getText,
      AstUtils.getFunctionTarget, AstUtils.getFunctionName,
      AstUtils.isConstantExpression]

/-- Claim C8: an ignore-pattern string that does not compile as a
regular expression makes the walker's option parsing fail, and
`Rule.apply` propagates that failure for every source file — before any
traversal, producing no diagnostic list. -/
theorem bad_ignore_fails_at_construction
    (compileRegExp : String → Except String (String → Bool))
    (pat e : String) (h : compileRegExp pat = Except.error e) :
    parseOptions compileRegExp [RuleOption.objectOption (some pat)] = Except.error e
    ∧ ∀ file : SourceFile,
        applyRule compileRegExp [RuleOption.objectOption (some pat)] file =
          Except.error e := by
  have hp : parseOptions compileRegExp [RuleOption.objectOption (some pat)] =
      Except.error e := by
    simp [parseOptions, List.foldlM, h]
  refine ⟨hp, fun file => ?_⟩
  simp [applyRule, hp]

/-- Witness for `bad_ignore_fails_at_construction` with a concrete
compiler that rejects the pattern string. -/
theorem bad_ignore_fails_at_construction_witness :
    applyRule
      (fun s => if s = "(" then Except.error "bad pattern"
                else Except.ok (fun _ => false))
      [RuleOption.objectOption (some "(")]
      { isMochaTest := true, statements := [] } = Except.error "bad pattern" :=
  (bad_ignore_fails_at_construction
      (fun s => if s = "(" then Except.error "bad pattern"
                else Except.ok (fun _ => false))
      "(" "bad pattern" (by simp)).2
    { isMochaTest := true, statements := [] }

mutual

/-- Visiting any node leaves the `isInDescribe` flag as it found it:
only the describe branch mutates it, and it restores the prior value on
the way out. -/
theorem visitNode_state (cfg : Config) :
    ∀ (st : Bool) (n : TNode), (visitNode cfg st n).2 = st
  | st, .callNode functionName calleeText asExpr s w children => by
      rw [visitNode]
      split
      · cases st with
        | false => simp
        | true => simp [visitList_state cfg true children]
      · split
        · rfl
        · split
          · rfl
          · rfl
  | st, .varDeclNode initializer text s w => by
      rw [visitNode]
      split
      · rfl
      · rfl
  | _, .funcDeclNode _ => by rw [visitNode]
  | _, .classDeclNode _ => by rw [visitNode]
  | st, .genericNode children => by
      rw [visitNode]
      exact visitList_state cfg st children

/-- Visiting a sibling list leaves `isInDescribe` as it found it. -/
theorem visitList_state (cfg : Config) :
    ∀ (st : Bool) (l : List TNode), (visitList cfg st l).2 = st
  | _, [] => by rw [visitList]
  | st, n :: rest => by
      rw [visitList]
      simp only [visitNode_state cfg st n]
      exact visitList_state cfg st rest

end

/-- Claim C6: inside nested describe calls the `isInDescribe` flag stays
active — the children of a describe call are visited with the flag set,
leaving a describe entered while the flag was already active (a nested
entry) keeps it active, and only leaving a describe entered with the
flag clear (the outermost entry) clears it. -/
theorem describe_flag_scoping (cfg : Config) (calleeText : String)
    (asExpr : Expr) (s w : Nat) (children : List TNode) :
    ((visitNode cfg true
        (TNode.callNode "describe" calleeText asExpr s w children)).2 = true)
    ∧ ((visitNode cfg false
        (TNode.callNode "describe" calleeText asExpr s w children)).2 = false)
    ∧ (∀ st : Bool, (visitNode cfg st
        (TNode.callNode "describe" calleeText asExpr s w children)).1
          = (visitList cfg true children).1) := by
  refine ⟨?_, ?_, fun st => ?_⟩ <;>
    rw [visitNode] <;>
    simp [visitList_state cfg true children]

/-- Claim C5: a call to a recognized lifecycle hook (`it`, `before`,
`beforeEach`, `after`, `afterEach`) is not traversed into: the walker
returns no diagnostic for it and leaves the flag unchanged, whatever the
call's arguments contain. -/
theorem lifecycle_hooks_not_traversed (cfg : Config) (st : Bool)
    (functionName calleeText : String) (asExpr : Expr) (s w : Nat)
    (children : List TNode)
    (hname : functionName = "it" ∨ functionName = "before"
      ∨ functionName = "beforeEach" ∨ functionName = "after"
      ∨ functionName = "afterEach")
    (htext : calleeText ≠ "describe.skip") :
    visitNode cfg st
      (TNode.callNode functionName calleeText asExpr s w children) = ([], st) := by
  rcases hname with h | h | h | h | h <;> subst h <;>
    rw [visitNode] <;>
    simp [htext]

/-- Witness for `lifecycle_hooks_not_traversed`: an `it` call whose body
contains the unsafe initialization `x = someFunctionCall()` produces no
diagnostic even while inside a describe. -/
theorem lifecycle_hooks_not_traversed_witness :
    visitNode { ignoreRegex := none } true
      (TNode.callNode "it" "it"
        (Expr.callExpression "it('t', () => ...)" "it" none false) 0 50
        [TNode.genericNode
          [TNode.varDeclNode
            (some (Expr.callExpression "someFunctionCall()" "someFunctionCall"
              none false))
            "x = someFunctionCall()" 10 22]]) = ([], true) :=
  lifecycle_hooks_not_traversed { ignoreRegex := none } true "it" "it"
    (Expr.callExpression "it('t', () => ...)" "it" none false) 0 50
    [TNode.genericNode
      [TNode.varDeclNode
        (some (Expr.callExpression "someFunctionCall()" "someFunctionCall"
          none false))
        "x = someFunctionCall()" 10 22]]
    (Or.inl rfl) (by decide)

/-- Every expression node has positive size. -/
theorem size_pos (e : Expr) : 1 ≤ size e := by
  cases e <;> simp [size]

/-- An array element's size is bounded by the element list's total size. -/
theorem sizeElements_mem (e : Expr) :
    ∀ l : List Expr, e ∈ l → size e ≤ sizeElements l
  | [], h => absurd h (List.not_mem_nil e)
  | x :: rest, h => by
      rw [sizeElements]
      rcases List.mem_cons.mp h with h | h
      · subst h
        exact Nat.le_add_right _ _
      · exact le_trans (sizeElements_mem e rest h) (Nat.le_add_left _ _)

/-- A property value's size is bounded by the property list's total size. -/
theorem sizeProperties_mem (v : Expr) :
    ∀ l : List (Option Expr), some v ∈ l → size v ≤ sizeProperties l
  | [], h => absurd h (List.not_mem_nil _)
  | some x :: rest, h => by
      rw [sizeProperties]
      rcases List.mem_cons.mp h with h | h
      · obtain rfl : v = x := Option.some.inj h
        exact Nat.le_add_right _ _
      · exact le_trans (sizeProperties_mem v rest h) (Nat.le_add_left _ _)
  | none :: rest, h => by
      rw [sizeProperties]
      rcases List.mem_cons.mp h with h | h
      · exact Option.noConfusion h
      · exact sizeProperties_mem v rest h

/-- With enough fuel for every element, the fuel-bounded run over an
element list succeeds and agrees with the unbounded one. -/
theorem validateElementsFuel_complete (cfg : Config) (p : PNode) (n : Nat)
    (ih : ∀ e : Expr, size e ≤ n →
      validateFuel cfg p n e = some (validateExpression cfg p e)) :
    ∀ l : List Expr, sizeElements l ≤ n →
      validateElementsFuel cfg p n l = some (validateElements cfg p l)
  | [], _ => by
      rw [validateElementsFuel]
      simp [validateElements]
  | x :: rest, h => by
      have hx : size x ≤ n :=
        le_trans (sizeElements_mem x (x :: rest) (List.mem_cons_self x rest)) h
      have hrest : sizeElements rest ≤ n := by
        rw [sizeElements] at h
        omega
      rw [validateElementsFuel, ih x hx,
        validateElementsFuel_complete cfg p n ih rest hrest]
      simp [validateElements]

/-- With enough fuel for every property value, the fuel-bounded run over
a property list succeeds and agrees with the unbounded one. -/
theorem validatePropertiesFuel_complete (cfg : Config) (p : PNode) (n : Nat)
    (ih : ∀ e : Expr, size e ≤ n →
      validateFuel cfg p n e = some (validateExpression cfg p e)) :
    ∀ l : List (Option Expr), sizeProperties l ≤ n →
      validatePropertiesFuel cfg p n l = some (validateProperties cfg p l)
  | [], _ => by
      rw [validatePropertiesFuel]
      simp [validateProperties]
  | some v :: rest, h => by
      have hv : size v ≤ n :=
        le_trans (sizeProperties_mem v (some v :: rest)
          (List.mem_cons_self (some v) rest)) h
      have hrest : sizeProperties rest ≤ n := by
        rw [sizeProperties] at h
        omega
      rw [validatePropertiesFuel, ih v hv,
        validatePropertiesFuel_complete cfg p n ih rest hrest]
      simp [validateProperties]
  | none :: rest, h => by
      have hrest : sizeProperties rest ≤ n := by
        rw [sizeProperties] at h
        omega
      rw [validatePropertiesFuel,
        validatePropertiesFuel_complete cfg p n ih rest hrest]
      simp [validateProperties]

/-- Claim C9: the classifier terminates on every finite expression tree:
each recursive call descends into a proper subexpression, so the size of
the tree bounds the recursion depth — running the classifier with fuel
`size e` (or more) never exhausts the fuel and computes exactly
`validateExpression`. -/
theorem validateExpression_terminates (cfg : Config) (p : PNode) :
    ∀ (n : Nat) (e : Expr), size e ≤ n →
      validateFuel cfg p n e = some (validateExpression cfg p e) := by
  intro n
  induction n with
  | zero =>
      intro e h
      exact absurd (le_trans (size_pos e) h) (by omega)
  | succ n ih =>
      intro e h
      cases e with
      | literal t => rw [validateFuel, validateExpression]
      | functionExpr t => rw [validateFuel, validateExpression]
      | arrowFunction t => rw [validateFuel, validateExpression]
      | arrayLiteral t elements =>
          have hsz : sizeElements elements ≤ n := by
            rw [size] at h
            omega
          rw [validateFuel, validateExpression,
            validateElementsFuel_complete cfg p n ih elements hsz]
      | templateToken t => rw [validateFuel, validateExpression]
      | typeAssertion t expression =>
          have hsz : size expression ≤ n := by
            rw [size] at h
            omega
          rw [validateFuel, validateExpression, ih expression hsz]
      | propertyAccess t => rw [validateFuel, validateExpression]
      | identifier t => rw [validateFuel, validateExpression]
      | objectLiteral t properties =>
          have hsz : sizeProperties properties ≤ n := by
            rw [size] at h
            omega
          rw [validateFuel, validateExpression,
            validatePropertiesFuel_complete cfg p n ih properties hsz]
      | callExpression t fn tgt ce => simp [validateFuel, validateExpression]
      | newExpression t fn ce => simp [validateFuel, validateExpression]
      | otherExpression t ce => simp [validateFuel, validateExpression]

/-- Witness for `validateExpression_terminates` on a concrete nested
tree at exactly its size as fuel. -/
theorem validateExpression_terminates_witness :
    validateFuel { ignoreRegex := none } { text := "x", start := 0, width := 1 } 4
      (Expr.arrayLiteral "[1, [f()]]"
        [Expr.literal "1",
         Expr.arrayLiteral "[f()]"
           [Expr.callExpression "f()" "f" none false]]) =
    some (validateExpression { ignoreRegex := none }
      { text := "x", start := 0, width := 1 }
      (Expr.arrayLiteral "[1, [f()]]"
        [Expr.literal "1",
         Expr.arrayLiteral "[f()]"
           [Expr.callExpression "f()" "f" none false]])) :=
  validateExpression_terminates { ignoreRegex := none }
    { text := "x", start := 0, width := 1 } 4
    (Expr.arrayLiteral "[1, [f()]]"
      [Expr.literal "1",
       Expr.arrayLiteral "[f()]"
         [Expr.callExpression "f()" "f" none false]])
    (by simp [size, sizeElements])

end MochaNoSideEffectCode
